import Mathlib

/-!
Verification of the cdnbuddy-intent service core: the intent pipeline
(request validation, completion call, JSON extraction/parsing/repair) and the
conversation-memory layer (Redis-backed session store plus process-local cache).

Modelling conventions:
* Go `time.Time` values are modelled as natural numbers (instants); callers of
  `time.Now()` receive the instant as an explicit `now` argument.
* The Redis store is modelled as a key-value map `String → Option SessionData`;
  `encoding/json` (de)serialisation of the stored record is treated as exact.
* The completion backend (Anthropic HTTP call) is modelled as an explicit
  `Except String String` argument: either the completion text or a transport
  error (timeouts included), matching the spec's opaque text-in/text-out view.
* `map[string]*string` is modelled as `Option (List (String × Option String))`
  so that Go's `nil` map (`none`) is distinguished from an empty map.
-/

namespace CdnBuddy

/-! ## models package (status and error-code constants, request/response) -/

def StatusNeedsInfo : String := "NEEDS_INFO"

def StatusReady : String := "READY"

def StatusError : String := "ERROR"

def ErrorLLMTimeout : String := "LLM_API_TIMEOUT"

def ErrorLLMFailed : String := "LLM_API_FAILED"

def ErrorParseError : String := "PARSE_ERROR"

def ErrorUnknownIntent : String := "UNKNOWN_INTENT"

structure ConversationMessage where
  role : String
  message : String
deriving DecidableEq

structure ActionSchema where
  action : String
  parameters : List String
deriving DecidableEq

structure IntentRequest where
  sessionID : String
  userMessage : String
  conversationHistory : List ConversationMessage
  availableActions : List ActionSchema
deriving DecidableEq

structure IntentResponse where
  sessionID : String
  action : Option String
  status : String
  parameters : Option (List (String × Option String))
  userMessage : String
  errorCode : Option String
  errorMessage : Option String
deriving DecidableEq

/-- Go zero value of `models.IntentResponse`, the starting point of
`json.Unmarshal` into a fresh `var response models.IntentResponse`. -/
def zeroIntentResponse : IntentResponse :=
  { sessionID := ""
    action := none
    status := ""
    parameters := none
    userMessage := ""
    errorCode := none
    errorMessage := none }

/-! ## A JSON value grammar and parser mirroring `encoding/json` on the
shapes this service decodes (objects of strings, nulls and nested maps). -/

inductive JValue where
  | jnull : JValue
  | jbool : Bool → JValue
  | jnum : String → JValue
  | jstr : String → JValue
  | jarr : List JValue → JValue
  | jobj : List (String × JValue) → JValue

def isJsonWs (c : Char) : Bool :=
  c = ' ' || c = '\t' || c = '\n' || c = '\r'

def skipWs : List Char → List Char
  | [] => []
  | c :: cs => if isJsonWs c then skipWs cs else c :: cs

def unescapeChar (e : Char) : Option Char :=
  if e = '"' then some '"'
  else if e = '\\' then some '\\'
  else if e = '/' then some '/'
  else if e = 'n' then some '\n'
  else if e = 't' then some '\t'
  else if e = 'r' then some '\r'
  else if e = 'b' then some (Char.ofNat 8)
  else if e = 'f' then some (Char.ofNat 12)
  else none

def hexDigitVal (c : Char) : Option Nat :=
  if '0' ≤ c ∧ c ≤ '9' then some (c.toNat - '0'.toNat)
  else if 'a' ≤ c ∧ c ≤ 'f' then some (c.toNat - 'a'.toNat + 10)
  else if 'A' ≤ c ∧ c ≤ 'F' then some (c.toNat - 'A'.toNat + 10)
  else none

def parseStrChars : List Char → Option (List Char × List Char)
  | [] => none
  | c :: rest =>
    if c = '"' then some ([], rest)
    else if c = '\\' then
      match rest with
      | [] => none
      | e :: rest2 =>
        if e = 'u' then
          match rest2 with
          | h1 :: h2 :: h3 :: h4 :: rest3 =>
            match hexDigitVal h1, hexDigitVal h2, hexDigitVal h3, hexDigitVal h4 with
            | some a, some b, some c2, some d =>
              match parseStrChars rest3 with
              | some (cs, rem) =>
                some (Char.ofNat (((a * 16 + b) * 16 + c2) * 16 + d) :: cs, rem)
              | none => none
            | _, _, _, _ => none
          | _ => none
        else
          match unescapeChar e with
          | some u =>
            match parseStrChars rest2 with
            | some (cs, rem) => some (u :: cs, rem)
            | none => none
          | none => none
    else
      match parseStrChars rest with
      | some (cs, rem) => some (c :: cs, rem)
      | none => none

def takeDigits (cs : List Char) : List Char × List Char :=
  cs.span Char.isDigit

def parseFracPart : List Char → Option (List Char × List Char)
  | '.' :: r =>
    match takeDigits r with
    | ([], _) => none
    | (ds, rest) => some ('.' :: ds, rest)
  | cs => some ([], cs)

def parseExpPart : List Char → Option (List Char × List Char)
  | [] => some ([], [])
  | e :: r =>
    if e = 'e' ∨ e = 'E' then
      match r with
      | [] => none
      | s :: r2 =>
        if s = '+' ∨ s = '-' then
          match takeDigits r2 with
          | ([], _) => none
          | (ds, rest) => some (e :: s :: ds, rest)
        else
          match takeDigits r with
          | ([], _) => none
          | (ds, rest) => some (e :: ds, rest)
    else some ([], e :: r)

def parseNumber (cs : List Char) : Option (String × List Char) :=
  let signed := match cs with
    | '-' :: r => ((['-'] : List Char), r)
    | _ => (([] : List Char), cs)
  match takeDigits signed.2 with
  | ([], _) => none
  | (ds, cs2) =>
    match parseFracPart cs2 with
    | none => none
    | some (fs, cs3) =>
      match parseExpPart cs3 with
      | none => none
      | some (es, cs4) => some (String.mk (signed.1 ++ ds ++ fs ++ es), cs4)

inductive PShape where
  | val : PShape
  | arr : List JValue → PShape
  | obj : List (String × JValue) → PShape

def parseStep : Nat → PShape → List Char → Option (JValue × List Char)
  | 0, _, _ => none
  | fuel + 1, PShape.val, cs =>
    match skipWs cs with
    | 'n' :: 'u' :: 'l' :: 'l' :: rest => some (JValue.jnull, rest)
    | 't' :: 'r' :: 'u' :: 'e' :: rest => some (JValue.jbool true, rest)
    | 'f' :: 'a' :: 'l' :: 's' :: 'e' :: rest => some (JValue.jbool false, rest)
    | '"' :: rest =>
      match parseStrChars rest with
      | some (scs, rem) => some (JValue.jstr (String.mk scs), rem)
      | none => none
    | '[' :: rest =>
      match skipWs rest with
      | ']' :: rem => some (JValue.jarr [], rem)
      | rest2 => parseStep fuel (PShape.arr []) rest2
    | '{' :: rest =>
      match skipWs rest with
      | '}' :: rem => some (JValue.jobj [], rem)
      | rest2 => parseStep fuel (PShape.obj []) rest2
    | other =>
      match parseNumber other with
      | some (numStr, rem) => some (JValue.jnum numStr, rem)
      | none => none
  | fuel + 1, PShape.arr acc, cs =>
    match parseStep fuel PShape.val cs with
    | none => none
    | some (v, rest) =>
      match skipWs rest with
      | ',' :: rest2 => parseStep fuel (PShape.arr (acc ++ [v])) rest2
      | ']' :: rest2 => some (JValue.jarr (acc ++ [v]), rest2)
      | _ => none
  | fuel + 1, PShape.obj acc, cs =>
    match skipWs cs with
    | '"' :: rest =>
      match parseStrChars rest with
      | none => none
      | some (kcs, rest2) =>
        match skipWs rest2 with
        | ':' :: rest3 =>
          match parseStep fuel PShape.val rest3 with
          | none => none
          | some (v, rest4) =>
            match skipWs rest4 with
            | ',' :: rest5 => parseStep fuel (PShape.obj (acc ++ [(String.mk kcs, v)])) rest5
            | '}' :: rest5 => some (JValue.jobj (acc ++ [(String.mk kcs, v)]), rest5)
            | _ => none
        | _ => none
    | _ => none

/-- Decode one JSON text into a single value, insisting (as `json.Unmarshal`
does) that nothing but whitespace follows the value. -/
def jsonParse (s : String) : Option JValue :=
  match parseStep (2 * s.data.length + 4) PShape.val s.data with
  | some (v, rest) => if skipWs rest = [] then some v else none
  | none => none

/-! ## Decoding a JSON value into `models.IntentResponse`, following
`json.Unmarshal` semantics: unknown keys ignored, `null` is a no-op for any
field, a JSON string into `*string` sets the pointer, wrong types fail. -/

/-- ASCII case-folding used for `json.Unmarshal`'s case-insensitive field-name
match (all struct tags of this service are ASCII). -/
def lowerChar (c : Char) : Char :=
  if 'A' ≤ c ∧ c ≤ 'Z' then Char.ofNat (c.toNat + 32) else c

def lowerString (s : String) : String := String.mk (s.data.map lowerChar)

def decodeParamEntry : JValue → Except String (Option String)
  | JValue.jnull => Except.ok none
  | JValue.jstr s => Except.ok (some s)
  | _ => Except.error "cannot unmarshal parameter value into Go value of type *string"

def insertParam (ps : List (String × Option String)) (k : String) (v : Option String) :
    List (String × Option String) :=
  if ps.any (fun p => p.1 = k) then ps.map (fun p => if p.1 = k then (k, v) else p)
  else ps ++ [(k, v)]

def decodeParams : List (String × Option String) → List (String × JValue) →
    Except String (List (String × Option String))
  | acc, [] => Except.ok acc
  | acc, (k, v) :: rest =>
    match decodeParamEntry v with
    | Except.ok s => decodeParams (insertParam acc k s) rest
    | Except.error e => Except.error e

def setField (r : IntentResponse) (kv : String × JValue) : Except String IntentResponse :=
  let k := lowerString kv.1
  if k = "session_id" then
    match kv.2 with
    | JValue.jnull => Except.ok r
    | JValue.jstr s => Except.ok { r with sessionID := s }
    | _ => Except.error "cannot unmarshal into field session_id"
  else if k = "action" then
    match kv.2 with
    | JValue.jnull => Except.ok r
    | JValue.jstr s => Except.ok { r with action := some s }
    | _ => Except.error "cannot unmarshal into field action"
  else if k = "status" then
    match kv.2 with
    | JValue.jnull => Except.ok r
    | JValue.jstr s => Except.ok { r with status := s }
    | _ => Except.error "cannot unmarshal into field status"
  else if k = "parameters" then
    match kv.2 with
    | JValue.jnull => Except.ok r
    | JValue.jobj fields =>
      match decodeParams (r.parameters.getD []) fields with
      | Except.ok ps => Except.ok { r with parameters := some ps }
      | Except.error e => Except.error e
    | _ => Except.error "cannot unmarshal into field parameters"
  else if k = "user_message" then
    match kv.2 with
    | JValue.jnull => Except.ok r
    | JValue.jstr s => Except.ok { r with userMessage := s }
    | _ => Except.error "cannot unmarshal into field user_message"
  else if k = "error_code" then
    match kv.2 with
    | JValue.jnull => Except.ok r
    | JValue.jstr s => Except.ok { r with errorCode := some s }
    | _ => Except.error "cannot unmarshal into field error_code"
  else if k = "error_message" then
    match kv.2 with
    | JValue.jnull => Except.ok r
    | JValue.jstr s => Except.ok { r with errorMessage := some s }
    | _ => Except.error "cannot unmarshal into field error_message"
  else Except.ok r

def decodeIntentResponse : JValue → Except String IntentResponse
  | JValue.jnull => Except.ok zeroIntentResponse
  | JValue.jobj fields => fields.foldlM setField zeroIntentResponse
  | _ => Except.error "cannot unmarshal JSON value into Go value of type models.IntentResponse"

/-! ## prompts package: fallback message, JSON extraction, parse + repair -/

def FallbackMessage : String :=
  "I didn\x27t understand your request clearly. Could you please rephrase what you\x27d like me to help you with regarding CDN setup or management?"

def firstBrace : List Char → Char → Option Nat
  | [], _ => none
  | c :: cs, t => if c = t then some 0 else (firstBrace cs t).map (· + 1)

def lastBrace (cs : List Char) (t : Char) : Option Nat :=
  match firstBrace cs.reverse t with
  | none => none
  | some i => some (cs.length - 1 - i)

/-- `extractJSON` from the prompts package (and, identically, from
`AnthropicProvider.extractJSON`): the span from the first `\x7b` to the last
`\x7d` of the content, or `""` when no such enclosing braces exist. -/
def extractJSON (content : String) : String :=
  match firstBrace content.data '{' with
  | none => ""
  | some start =>
    match lastBrace content.data '}' with
    | none => ""
    | some stop =>
      if stop ≤ start then ""
      else String.mk ((content.data.drop start).take (stop + 1 - start))

/-- `prompts.ParseLLMResponse`: extract the brace-enclosed span, decode it,
then repair a missing `status` (forcing `ERROR` with the fallback message) and
a nil `parameters` map. `AnthropicProvider.parseIntentResponse` implements the
same logic line for line; `parseIntentResponse` below is its alias. -/
def ParseLLMResponse (content : String) : Except String IntentResponse :=
  let jsonContent := extractJSON content
  if jsonContent = "" then Except.error "no valid JSON found in response"
  else
    match jsonParse jsonContent with
    | none => Except.error "failed to parse JSON"
    | some v =>
      match decodeIntentResponse v with
      | Except.error e => Except.error ("failed to parse JSON: " ++ e)
      | Except.ok response =>
        let response :=
          if response.status = "" then
            { response with status := StatusError, userMessage := FallbackMessage }
          else response
        let response :=
          if response.parameters = none then { response with parameters := some [] }
          else response
        Except.ok response

def parseIntentResponse (content : String) : Except String IntentResponse :=
  ParseLLMResponse content

/-! ## handlers package: IntentHandler -/

def validateRequest (request : IntentRequest) : Option String :=
  if request.sessionID = "" then some "session_id is required"
  else if request.userMessage = "" then some "user_message is required"
  else none

def validStatusB (s : String) : Bool :=
  s = StatusNeedsInfo || s = StatusReady || s = StatusError

def validateAndCleanResponse (response : IntentResponse) : IntentResponse :=
  let response :=
    if validStatusB response.status then response
    else { response with status := StatusError, userMessage := FallbackMessage }
  let response :=
    if response.parameters = none then { response with parameters := some [] }
    else response
  if response.userMessage = "" then
    { response with userMessage := "How can I help you with your CDN setup?" }
  else response

def createErrorResponse (request : IntentRequest) (errorCode errorMessage : String) :
    IntentResponse :=
  { sessionID := request.sessionID
    action := none
    status := StatusError
    parameters := some []
    userMessage := FallbackMessage
    errorCode := some errorCode
    errorMessage := some errorMessage }

/-- `IntentHandler.ProcessIntent`. The completion call (`callLLM`, whose Go
signature may fail) is abstracted by the `llmResult` argument: either the
completion text or an error (timeout or transport failure). The returned
`Bool` records whether the completion call was reached; the Go function
returns a `nil` error on every path, so the result type is the plain
response. -/
def ProcessIntent (request : IntentRequest) (llmResult : Except String String) :
    IntentResponse × Bool :=
  match validateRequest request with
  | some errMsg => (createErrorResponse request ErrorParseError errMsg, false)
  | none =>
    match llmResult with
    | Except.error e => (createErrorResponse request ErrorLLMFailed e, true)
    | Except.ok content =>
      match ParseLLMResponse content with
      | Except.error _ =>
        (createErrorResponse request ErrorParseError "Failed to understand response", true)
      | Except.ok response =>
        (validateAndCleanResponse { response with sessionID := request.sessionID }, true)

/-! ## memory package: store types, RedisStore, Manager -/

structure Message where
  role : String
  content : String
  timestamp : Nat
deriving DecidableEq

structure Metadata where
  startedAt : Nat
  lastActivity : Nat
  messageCount : Nat
deriving DecidableEq

structure SessionData where
  sessionID : String
  userID : String
  messages : List Message
  metadata : Metadata
deriving DecidableEq

/-- The Redis key space, holding one (JSON-serialised) SessionRecord per key.
Serialisation by `encoding/json` is treated as exact, so values are records. -/
def RedisKV : Type := String → Option SessionData

def updKV {α : Type} (f : String → Option α) (k : String) (v : α) : String → Option α :=
  fun q => if q = k then some v else f q

def sessionKey (sessionID : String) : String := "session:" ++ sessionID

/-- `RedisStore.LoadSession`: a missing key is synthesised as the empty
session (started/lastActivity stamped with the current instant), not an
error. -/
def LoadSession (kv : RedisKV) (sessionID : String) (now : Nat) : SessionData :=
  match kv (sessionKey sessionID) with
  | none =>
    { sessionID := sessionID
      userID := ""
      messages := []
      metadata := { startedAt := now, lastActivity := now, messageCount := 0 } }
  | some session => session

/-- `RedisStore.saveSession`: write the record under its own session key. -/
def saveSession (kv : RedisKV) (session : SessionData) : RedisKV :=
  updKV kv (sessionKey session.sessionID) session

/-- `RedisStore.SaveMessage`: read-modify-write append of one message. -/
def SaveMessage (kv : RedisKV) (sessionID userID : String) (msg : Message) (now : Nat) :
    RedisKV :=
  let session := LoadSession kv sessionID now
  let session := if session.userID = "" then { session with userID := userID } else session
  let messages := session.messages ++ [msg]
  let meta :=
    { startedAt := if messages.length = 1 then msg.timestamp else session.metadata.startedAt
      lastActivity := now
      messageCount := messages.length }
  saveSession kv { session with messages := messages, metadata := meta }

/-- A sequence of `SaveMessage` writes, each carrying its message and its
`time.Now()` instant. -/
def appendAll (kv : RedisKV) (sessionID userID : String) : List (Message × Nat) → RedisKV
  | [] => kv
  | (msg, now) :: rest => appendAll (SaveMessage kv sessionID userID msg now) sessionID userID rest

/-- The record read back for `sessionID` after a sequence of writes (the
read instant is irrelevant once the record exists). -/
def storedAfter (kv : RedisKV) (sessionID userID : String) (writes : List (Message × Nat)) :
    SessionData :=
  LoadSession (appendAll kv sessionID userID writes) sessionID 0

/-- A LangChainGo chat-history entry (Human/AI/System chat message). -/
inductive ChatMsg where
  | human : String → ChatMsg
  | ai : String → ChatMsg
  | system : String → ChatMsg
deriving DecidableEq

/-- The role dispatch of `Manager.GetOrCreateSession`: known roles map to
chat messages, any other role is skipped (`continue`). -/
def chatOfMessage (msg : Message) : Option ChatMsg :=
  if msg.role = "user" then some (ChatMsg.human msg.content)
  else if msg.role = "assistant" then some (ChatMsg.ai msg.content)
  else if msg.role = "system" then some (ChatMsg.system msg.content)
  else none

/-- `memory.Manager` state: the in-memory session cache (conversation buffers)
plus the backing store. -/
structure MgrState where
  sessions : String → Option (List ChatMsg)
  store : RedisKV

/-- `Manager.GetOrCreateSession`: cached projection if resident, else replay
the store record (empty default when absent) and cache the result. -/
def GetOrCreateSession (st : MgrState) (sessionID : String) (now : Nat) :
    List ChatMsg × MgrState :=
  match st.sessions sessionID with
  | some mem => (mem, st)
  | none =>
    let sessionData := LoadSession st.store sessionID now
    let mem := sessionData.messages.filterMap chatOfMessage
    (mem, { st with sessions := updKV st.sessions sessionID mem })

/-- `Manager.SaveUserMessage`: append to the cached buffer, then persist via
`SaveMessage` with role `user`. -/
def SaveUserMessage (st : MgrState) (sessionID userID text : String) (now : Nat) : MgrState :=
  let loaded := GetOrCreateSession st sessionID now
  let st := loaded.2
  let mem := loaded.1 ++ [ChatMsg.human text]
  let st := { st with sessions := updKV st.sessions sessionID mem }
  { st with
    store := SaveMessage st.store sessionID userID
      { role := "user", content := text, timestamp := now } now }

/-- `Manager.SaveAssistantMessage`: append to the cached buffer, then persist
via `SaveMessage` with role `assistant`. -/
def SaveAssistantMessage (st : MgrState) (sessionID userID text : String) (now : Nat) :
    MgrState :=
  let loaded := GetOrCreateSession st sessionID now
  let st := loaded.2
  let mem := loaded.1 ++ [ChatMsg.ai text]
  let st := { st with sessions := updKV st.sessions sessionID mem }
  { st with
    store := SaveMessage st.store sessionID userID
      { role := "assistant", content := text, timestamp := now } now }

def chatLine : ChatMsg → String
  | ChatMsg.human c => "User: " ++ c ++ "\n"
  | ChatMsg.ai c => "Assistant: " ++ c ++ "\n"
  | ChatMsg.system c => "System: " ++ c ++ "\n"

/-- `Manager.GetFormattedHistory`: render the cached projection as role-tagged
lines, or the fixed sentinel when empty. -/
def GetFormattedHistory (st : MgrState) (sessionID : String) (now : Nat) :
    String × MgrState :=
  let loaded := GetOrCreateSession st sessionID now
  if loaded.1 = [] then ("No previous conversation.", loaded.2)
  else (String.join (loaded.1.map chatLine), loaded.2)

/-! ## llm package: the memory-integrated AnthropicProvider pipeline -/

def buildActionsSection (actions : List ActionSchema) : String :=
  String.join (actions.map (fun a =>
    "- " ++ a.action ++ ": requires [" ++ String.intercalate ", " a.parameters ++ "]\n"))

def promptPart1 : String :=
  "You are an AI assistant for CDNbuddy, a CDN management platform. Your job is to analyze user conversations and determine what CDN-related actions they want to perform.\n\nIMPORTANT RULES:\n1. Work on ONE action at a time, even if multiple actions are mentioned\n2. If multiple actions are mentioned, pick the first one mentioned\n3. Extract parameters from the conversation for the selected action\n4. If you need more information, ask specific questions\n5. When an action is complete, you can ask \"Do you have any other requirements?\"\n6. IMPORTANT: Review the ENTIRE conversation history before responding - don\x27t ask for information already provided\n\nRESPONSE FORMAT:\nYou must respond with a valid JSON object in this exact format:\n\x7b\n \"action\": \"ACTION_NAME or null\",\n \"status\": \"NEEDS_INFO or READY\",\n \"parameters\": \x7b\n \"param_name\": \"extracted_value or null\"\n \x7d,\n \"user_message\": \"Your response to the user\"\n\x7d\n\nAvailable Actions:\n"

def promptPart2 : String := "\n\nConversation History:\n"

def promptPart3 : String := "\n\nCurrent User Message: "

def promptPart4 : String :=
  "\n\nAnalyze the FULL conversation history above and respond with the JSON format. Remember to check what information was already provided in previous messages."

/-- `AnthropicProvider.buildPromptWithHistory`: the system template filled with
the rendered action schemas, the Redis-derived history and the current user
message — the request body's `conversation_history` plays no part. -/
def buildPromptWithHistory (request : IntentRequest) (formattedHistory : String) : String :=
  promptPart1 ++ buildActionsSection request.availableActions ++ promptPart2 ++
    formattedHistory ++ promptPart3 ++ request.userMessage ++ promptPart4

/-- The prompt text `AnalyzeIntent` sends to the backend, after persisting the
user turn and loading the formatted history from the memory manager. -/
def analyzePrompt (st : MgrState) (request : IntentRequest) (now : Nat) : String :=
  let userID := "user_" ++ request.sessionID
  let st := SaveUserMessage st request.sessionID userID request.userMessage now
  buildPromptWithHistory request (GetFormattedHistory st request.sessionID now).1

/-- `AnthropicProvider.AnalyzeIntent` (the memory-integrated variant): persist
the user turn, build the prompt from store-backed history, call the backend
(`httpResult` abstracts the HTTP completion call: the completion text or a
transport/timeout error), parse and repair, stamp the session id, and persist
the assistant turn only when a non-empty assistant message exists. -/
def AnalyzeIntent (st : MgrState) (request : IntentRequest) (now : Nat)
    (httpResult : Except String String) : Except String IntentResponse × MgrState :=
  let userID := "user_" ++ request.sessionID
  let st := SaveUserMessage st request.sessionID userID request.userMessage now
  let st := (GetFormattedHistory st request.sessionID now).2
  match httpResult with
  | Except.error e => (Except.error ("failed to make HTTP request: " ++ e), st)
  | Except.ok content =>
    match parseIntentResponse content with
    | Except.error e => (Except.error ("failed to parse intent response: " ++ e), st)
    | Except.ok response =>
      let response := { response with sessionID := request.sessionID }
      let st :=
        if response.userMessage = "" then st
        else SaveAssistantMessage st request.sessionID userID response.userMessage now
      (Except.ok response, st)

/-- Count of persisted assistant turns for a session (used to state that a
failed backend call persists no assistant turn). -/
def assistantTurns (st : MgrState) (sessionID : String) : Nat :=
  ((LoadSession st.store sessionID 0).messages.filter (fun m => m.role = "assistant")).length

/-! ## Concrete fixtures used by witnesses and counterexamples -/

def wReq : IntentRequest :=
  { sessionID := "s1"
    userMessage := "set up a CDN called foo"
    conversationHistory := []
    availableActions := [{ action := "CREATE_SERVICE", parameters := ["domain_name"] }] }

def wReqNoSession : IntentRequest :=
  { sessionID := "", userMessage := "hello", conversationHistory := [], availableActions := [] }

def wRec : SessionData :=
  { sessionID := "s9"
    userID := "u1"
    messages :=
      [{ role := "user", content := "hi", timestamp := 10 },
       { role := "tool", content := "x", timestamp := 11 },
       { role := "assistant", content := "yo", timestamp := 12 }]
    metadata := { startedAt := 10, lastActivity := 12, messageCount := 3 } }

def wStore : RedisKV := fun k => if k = sessionKey "s9" then some wRec else none

def wMgr : MgrState := { sessions := fun _ => none, store := wStore }

def wMgrEmpty : MgrState := { sessions := fun _ => none, store := fun _ => none }

def wKVempty : RedisKV := fun _ => none

def wObjText : String := "\x7b\"status\":\"READY\",\"user_message\":\"ok\"\x7d"

def wCexC3 : String := wObjText ++ " tail\x7d"

def wContentBadStatus : String := "xx \x7b\"status\":\"WAT\",\"user_message\":\"\"\x7d yy"

def wContentBogus : String := "\x7b\"status\":\"BOGUS\"\x7d"

def wContentBogusMsg : String := "\x7b\"status\":\"BOGUS\",\"user_message\":\"hi\"\x7d"

/-! ## Theorems -/

/-- Claim C8: a SessionRecord written to the store and immediately reloaded
(no concurrent writers) reproduces the same ordered message sequence and
metadata, with the role and content fields of every message identical. -/
theorem saveSession_load_roundtrip (kv : RedisKV) (s : SessionData) (now : Nat) :
    LoadSession (saveSession kv s) s.sessionID now = s ∧
    (LoadSession (saveSession kv s) s.sessionID now).messages.map Message.role
      = s.messages.map Message.role ∧
    (LoadSession (saveSession kv s) s.sessionID now).messages.map Message.content
      = s.messages.map Message.content ∧
    (LoadSession (saveSession kv s) s.sessionID now).metadata = s.metadata := by
  have h : LoadSession (saveSession kv s) s.sessionID now = s := by
    simp [LoadSession, saveSession, updKV]
  exact ⟨h, by rw [h], by rw [h], by rw [h]⟩

/-- Claim C6: `GetOrCreateSession` returns the empty projection for a session
id absent from both cache and store (the unknown key is synthesised as the
empty session, not an error), returns the cached projection when resident,
and otherwise replays the store record into a new projection in original
order, caches it, and returns it. -/
theorem getOrCreateSession_spec (st : MgrState) (sessionID : String) (now : Nat) :
    (st.sessions sessionID = none → st.store (sessionKey sessionID) = none →
      (GetOrCreateSession st sessionID now).1 = [] ∧
      (LoadSession st.store sessionID now).messages = [] ∧
      (LoadSession st.store sessionID now).metadata.messageCount = 0) ∧
    (∀ mem, st.sessions sessionID = some mem →
      GetOrCreateSession st sessionID now = (mem, st)) ∧
    (∀ r, st.sessions sessionID = none → st.store (sessionKey sessionID) = some r →
      (GetOrCreateSession st sessionID now).1 = r.messages.filterMap chatOfMessage ∧
      (GetOrCreateSession st sessionID now).2.sessions sessionID
        = some (r.messages.filterMap chatOfMessage) ∧
      (GetOrCreateSession st sessionID now).2.store = st.store) := by
  refine ⟨?_, ?_, ?_⟩
  · intro hc hs
    refine ⟨?_, ?_, ?_⟩ <;> simp [GetOrCreateSession, LoadSession, hc, hs]
  · intro mem hc
    simp [GetOrCreateSession, hc]
  · intro r hc hs
    refine ⟨?_, ?_, ?_⟩ <;> simp [GetOrCreateSession, LoadSession, hc, hs, updKV]

theorem getOrCreateSession_spec_witness :
    (wMgrEmpty.sessions "s7" = none ∧ wMgrEmpty.store (sessionKey "s7") = none ∧
      (GetOrCreateSession wMgrEmpty "s7" 3).1 = []) ∧
    (wMgr.sessions "s9" = none ∧ wMgr.store (sessionKey "s9") = some wRec ∧
      (GetOrCreateSession wMgr "s9" 3).1 = wRec.messages.filterMap chatOfMessage) := by
  constructor
  · exact ⟨rfl, rfl, ((getOrCreateSession_spec wMgrEmpty "s7" 3).1 rfl rfl).1⟩
  · exact ⟨rfl, by decide, ((getOrCreateSession_spec wMgr "s9" 3).2.2 wRec rfl (by decide)).1⟩

/-- Claim C9: replaying a stored session includes exactly the messages whose
role is `user`, `assistant` or `system`, in original order, and silently
skips messages with any other role, so the cached projection can contain
fewer messages than the stored `message_count` without the load failing. -/
theorem replay_skips_unknown_roles (st : MgrState) (sessionID : String) (now : Nat)
    (r : SessionData) (hc : st.sessions sessionID = none)
    (hs : st.store (sessionKey sessionID) = some r) :
    (GetOrCreateSession st sessionID now).1 = r.messages.filterMap chatOfMessage ∧
    (∀ m : Message, chatOfMessage m = none ↔
      (m.role ≠ "user" ∧ m.role ≠ "assistant" ∧ m.role ≠ "system")) ∧
    (GetOrCreateSession st sessionID now).1.length ≤ r.messages.length := by
  have h1 : (GetOrCreateSession st sessionID now).1 = r.messages.filterMap chatOfMessage := by
    simp [GetOrCreateSession, LoadSession, hc, hs]
  refine ⟨h1, ?_, ?_⟩
  · intro m
    unfold chatOfMessage
    split_ifs with h1 h2 h3 <;> simp_all
  · rw [h1]
    exact List.length_filterMap_le _ _

theorem replay_skips_unknown_roles_witness :
    (wMgr.sessions "s9" = none ∧ wMgr.store (sessionKey "s9") = some wRec) ∧
    (GetOrCreateSession wMgr "s9" 0).1 = wRec.messages.filterMap chatOfMessage ∧
    (GetOrCreateSession wMgr "s9" 0).1 = [ChatMsg.human "hi", ChatMsg.ai "yo"] ∧
    (GetOrCreateSession wMgr "s9" 0).1.length < wRec.metadata.messageCount := by
  refine ⟨⟨rfl, by decide⟩, ?_, by decide, by decide⟩
  exact (replay_skips_unknown_roles wMgr "s9" 0 wRec rfl (by decide)).1

/-- Claim C10: the memory-integrated pipeline never reads the inbound
request's `conversation_history` field: two requests identical except for
that field produce the identical prompt and, given the same backend reply,
the same instant and the same store state, the identical result and final
memory state. -/
theorem analyzeIntent_ignores_request_history (st : MgrState) (request : IntentRequest)
    (hist2 : List ConversationMessage) (now : Nat) (httpResult : Except String String) :
    analyzePrompt st { request with conversationHistory := hist2 } now
      = analyzePrompt st request now ∧
    AnalyzeIntent st { request with conversationHistory := hist2 } now httpResult
      = AnalyzeIntent st request now httpResult := by
  cases request
  exact ⟨rfl, rfl⟩

/-- Claim C7: a request with empty `session_id` or empty `user_message`
yields an immediate ERROR result with code `PARSE_ERROR`, and the
completion backend is not called. -/
theorem processIntent_invalid_request (request : IntentRequest)
    (llmResult : Except String String)
    (h : request.sessionID = "" ∨ request.userMessage = "") :
    (ProcessIntent request llmResult).1.status = StatusError ∧
    (ProcessIntent request llmResult).1.errorCode = some ErrorParseError ∧
    (ProcessIntent request llmResult).2 = false := by
  obtain ⟨e, he⟩ : ∃ e, validateRequest request = some e := by
    rcases h with h | h
    · exact ⟨"session_id is required", by simp [validateRequest, h]⟩
    · by_cases hs : request.sessionID = ""
      · exact ⟨"session_id is required", by simp [validateRequest, hs]⟩
      · exact ⟨"user_message is required", by simp [validateRequest, hs, h]⟩
  simp [ProcessIntent, he, createErrorResponse]

theorem processIntent_invalid_request_witness :
    (wReqNoSession.sessionID = "" ∨ wReqNoSession.userMessage = "") ∧
    ((ProcessIntent wReqNoSession (Except.ok "x")).1.status = StatusError ∧
     (ProcessIntent wReqNoSession (Except.ok "x")).1.errorCode = some ErrorParseError ∧
     (ProcessIntent wReqNoSession (Except.ok "x")).2 = false) :=
  ⟨Or.inl rfl, processIntent_invalid_request wReqNoSession (Except.ok "x") (Or.inl rfl)⟩

/-- Claim C1: `ProcessIntent` is total (the Go function returns a nil error on
every path), and every failure mode — invalid request, completion-backend
failure, unparseable model output — resolves to a result with status ERROR,
the fixed non-empty fallback user_message, and a non-null (possibly empty)
parameters mapping. -/
theorem processIntent_error_handling (request : IntentRequest)
    (llmResult : Except String String)
    (h : validateRequest request ≠ none ∨
         (∃ e, llmResult = Except.error e) ∨
         (∃ content, llmResult = Except.ok content ∧
           ∃ e, ParseLLMResponse content = Except.error e)) :
    (ProcessIntent request llmResult).1.status = StatusError ∧
    (ProcessIntent request llmResult).1.userMessage = FallbackMessage ∧
    (ProcessIntent request llmResult).1.userMessage ≠ "" ∧
    (ProcessIntent request llmResult).1.parameters ≠ none := by
  have hfb : FallbackMessage ≠ "" := by decide
  rcases h with h | ⟨e, rfl⟩ | ⟨content, rfl, e, hp⟩
  · obtain ⟨msg, hm⟩ := Option.ne_none_iff_exists'.mp h
    simp [ProcessIntent, hm, createErrorResponse, hfb]
  · cases hv : validateRequest request with
    | some msg => simp [ProcessIntent, hv, createErrorResponse, hfb]
    | none => simp [ProcessIntent, hv, createErrorResponse, hfb]
  · cases hv : validateRequest request with
    | some msg => simp [ProcessIntent, hv, createErrorResponse, hfb]
    | none => simp [ProcessIntent, hv, hp, createErrorResponse, hfb]

theorem processIntent_error_handling_witness :
    (validateRequest wReq ≠ none ∨
      (∃ e, (Except.ok "not json" : Except String String) = Except.error e) ∨
      (∃ content, (Except.ok "not json" : Except String String) = Except.ok content ∧
        ∃ e, ParseLLMResponse content = Except.error e)) ∧
    ((ProcessIntent wReq (Except.ok "not json")).1.status = StatusError ∧
     (ProcessIntent wReq (Except.ok "not json")).1.userMessage = FallbackMessage ∧
     (ProcessIntent wReq (Except.ok "not json")).1.userMessage ≠ "" ∧
     (ProcessIntent wReq (Except.ok "not json")).1.parameters ≠ none) :=
  ⟨Or.inr (Or.inr ⟨"not json", rfl, "no valid JSON found in response", rfl⟩),
   processIntent_error_handling wReq (Except.ok "not json")
     (Or.inr (Or.inr ⟨"not json", rfl, "no valid JSON found in response", rfl⟩))⟩

/-! ### Auxiliary lemmas for the failed-backend persistence behaviour -/

lemma getOrCreateSession_store (st : MgrState) (sid : String) (now : Nat) :
    (GetOrCreateSession st sid now).2.store = st.store := by
  unfold GetOrCreateSession
  cases st.sessions sid <;> rfl

lemma getFormattedHistory_state (st : MgrState) (sid : String) (now : Nat) :
    (GetFormattedHistory st sid now).2 = (GetOrCreateSession st sid now).2 := by
  by_cases h : (GetOrCreateSession st sid now).1 = [] <;> simp [GetFormattedHistory, h]

lemma loadSession_updKV (kv : RedisKV) (sid : String) (r : SessionData) (k : String)
    (t : Nat) :
    LoadSession (updKV kv k r) sid t
      = if sessionKey sid = k then r else LoadSession kv sid t := by
  unfold LoadSession updKV
  by_cases h : sessionKey sid = k <;> simp [h]

lemma filter_assistant_saveMessage (kv : RedisKV) (sid uid : String) (msg : Message)
    (now : Nat) (h : ¬ msg.role = "assistant") :
    ((LoadSession (SaveMessage kv sid uid msg now) sid 0).messages.filter
        (fun m => m.role = "assistant")).length
      = ((LoadSession kv sid 0).messages.filter (fun m => m.role = "assistant")).length := by
  cases hkv : kv (sessionKey sid) with
  | none =>
    simp [SaveMessage, LoadSession, saveSession, updKV, hkv, h]
  | some s =>
    have hload : LoadSession kv sid now = s := by simp [LoadSession, hkv]
    have hload0 : LoadSession kv sid 0 = s := by simp [LoadSession, hkv]
    simp only [SaveMessage, saveSession]
    rw [hload, loadSession_updKV]
    by_cases hk : sessionKey sid
        = sessionKey (if s.userID = "" then { s with userID := uid } else s).sessionID
    · rw [if_pos hk, hload0]
      by_cases hu : s.userID = "" <;> simp [hu, List.filter_append, h]
    · rw [if_neg hk, hload0]

lemma assistantTurns_congr (st1 st2 : MgrState) (sid : String)
    (h : st1.store = st2.store) : assistantTurns st1 sid = assistantTurns st2 sid := by
  unfold assistantTurns
  rw [h]

lemma assistantTurns_saveUserMessage (st : MgrState) (sid uid text : String) (now : Nat) :
    assistantTurns (SaveUserMessage st sid uid text now) sid = assistantTurns st sid := by
  have hstore : (SaveUserMessage st sid uid text now).store
      = SaveMessage (GetOrCreateSession st sid now).2.store sid uid
          { role := "user", content := text, timestamp := now } now := by
    simp [SaveUserMessage]
  unfold assistantTurns
  rw [hstore, getOrCreateSession_store]
  exact filter_assistant_saveMessage st.store sid uid _ now (by simp)

/-- Claim C4 as stated is false: at a concrete deadline-exceeded backend
failure the delivered result carries error code `LLM_API_FAILED`, not
`LLM_API_TIMEOUT` (the `ErrorLLMTimeout` constant is declared but never
attached to any response). -/
theorem timeout_code_cex :
    (ProcessIntent wReq (Except.error "context deadline exceeded")).1.status = StatusError ∧
    (ProcessIntent wReq (Except.error "context deadline exceeded")).1.errorCode
      = some ErrorLLMFailed ∧
    (ProcessIntent wReq (Except.error "context deadline exceeded")).1.errorCode
      ≠ some ErrorLLMTimeout := by
  refine ⟨by decide, by decide, by decide⟩

/-- Claim C4 (amended): when the completion-backend call fails — deadline
exceeded included — the result delivered to the caller has status ERROR,
error code `LLM_API_FAILED` (the code does not distinguish timeouts from
other backend failures), the fixed fallback user_message, and no assistant
turn is persisted to the session's history. -/
theorem timeout_behaviour_amended (request : IntentRequest) (e : String) (st : MgrState)
    (now : Nat) (hreq : validateRequest request = none) :
    (ProcessIntent request (Except.error e)).1.status = StatusError ∧
    (ProcessIntent request (Except.error e)).1.errorCode = some ErrorLLMFailed ∧
    (ProcessIntent request (Except.error e)).1.userMessage = FallbackMessage ∧
    (AnalyzeIntent st request now (Except.error e)).1
      = Except.error ("failed to make HTTP request: " ++ e) ∧
    assistantTurns (AnalyzeIntent st request now (Except.error e)).2 request.sessionID
      = assistantTurns st request.sessionID := by
  refine ⟨?_, ?_, ?_, ?_, ?_⟩
  · simp [ProcessIntent, hreq, createErrorResponse]
  · simp [ProcessIntent, hreq, createErrorResponse]
  · simp [ProcessIntent, hreq, createErrorResponse]
  · simp [AnalyzeIntent]
  · have hst : (AnalyzeIntent st request now (Except.error e)).2
        = (GetFormattedHistory
            (SaveUserMessage st request.sessionID ("user_" ++ request.sessionID)
              request.userMessage now)
            request.sessionID now).2 := by
      simp [AnalyzeIntent]
    rw [hst]
    have h1 := assistantTurns_congr
      (GetFormattedHistory
        (SaveUserMessage st request.sessionID ("user_" ++ request.sessionID)
          request.userMessage now) request.sessionID now).2
      (GetOrCreateSession
        (SaveUserMessage st request.sessionID ("user_" ++ request.sessionID)
          request.userMessage now) request.sessionID now).2
      request.sessionID (by rw [getFormattedHistory_state])
    rw [h1]
    have h2 := assistantTurns_congr
      (GetOrCreateSession
        (SaveUserMessage st request.sessionID ("user_" ++ request.sessionID)
          request.userMessage now) request.sessionID now).2
      (SaveUserMessage st request.sessionID ("user_" ++ request.sessionID)
        request.userMessage now)
      request.sessionID (getOrCreateSession_store _ _ _)
    rw [h2]
    exact assistantTurns_saveUserMessage st request.sessionID _ request.userMessage now

theorem timeout_behaviour_amended_witness :
    validateRequest wReq = none ∧
    ((ProcessIntent wReq (Except.error "context deadline exceeded")).1.status
        = StatusError ∧
     (ProcessIntent wReq (Except.error "context deadline exceeded")).1.errorCode
        = some ErrorLLMFailed ∧
     (ProcessIntent wReq (Except.error "context deadline exceeded")).1.userMessage
        = FallbackMessage ∧
     (AnalyzeIntent wMgrEmpty wReq 5 (Except.error "context deadline exceeded")).1
        = Except.error ("failed to make HTTP request: " ++ "context deadline exceeded") ∧
     assistantTurns
        (AnalyzeIntent wMgrEmpty wReq 5 (Except.error "context deadline exceeded")).2
        wReq.sessionID
        = assistantTurns wMgrEmpty wReq.sessionID) :=
  ⟨by decide,
   timeout_behaviour_amended wReq "context deadline exceeded" wMgrEmpty 5 (by decide)⟩


/-! ### Auxiliary lemmas about brace locations in concatenated text -/

lemma firstBrace_append_not_mem (xs ys : List Char) (t : Char)
    (h : ∀ c ∈ xs, ¬ c = t) :
    firstBrace (xs ++ ys) t = (firstBrace ys t).map (· + xs.length) := by
  induction xs with
  | nil =>
    simp only [List.nil_append, List.length_nil]
    cases hy : firstBrace ys t <;> simp
  | cons c cs ih =>
    have hc := h c (List.mem_cons_self c cs)
    have ih2 := ih (fun d hd => h d (List.mem_cons_of_mem c hd))
    simp only [List.cons_append, firstBrace, hc, if_false, List.length_cons,
      List.append_eq]
    rw [ih2]
    cases hy : firstBrace ys t <;> simp [Nat.add_assoc]

lemma firstBrace_head (cs : List Char) (t : Char) : firstBrace (t :: cs) t = some 0 := by
  simp [firstBrace]

lemma string_mk_data (s : String) : String.mk s.data = s := rfl

lemma extractJSON_eq_of (content : String) (a b : Nat)
    (hf : firstBrace content.data '{' = some a)
    (hl : lastBrace content.data '}' = some b)
    (hab : ¬ b ≤ a) :
    extractJSON content = String.mk ((content.data.drop a).take (b + 1 - a)) := by
  unfold extractJSON
  split
  · next heq => rw [hf] at heq; cases heq
  · next start heq =>
    rw [hf] at heq
    injection heq with heq2
    subst heq2
    split
    · next heq3 => rw [hl] at heq3; cases heq3
    · next stop heq3 =>
      rw [hl] at heq3
      injection heq3 with heq4
      subst heq4
      rw [if_neg hab]

/-- Core extraction fact: when a brace-delimited object is embedded in prose
whose leading part contains no opening brace and whose trailing part contains
no closing brace, `extractJSON` returns exactly the object. -/
lemma extractJSON_embedded (pre obj post : String)
    (hpre : ∀ c ∈ pre.data, ¬ c = '{')
    (hpost : ∀ c ∈ post.data, ¬ c = '}')
    (hhead : obj.data.head? = some '{')
    (hlast : obj.data.getLast? = some '}') :
    extractJSON (pre ++ obj ++ post) = obj := by
  obtain ⟨ot, hO⟩ : ∃ ot, obj.data = '{' :: ot := by
    cases hod : obj.data with
    | nil => rw [hod] at hhead; cases hhead
    | cons a otail =>
      rw [hod] at hhead
      simp at hhead
      exact ⟨otail, by rw [hhead]⟩
  obtain ⟨rt, hR⟩ : ∃ rt, obj.data.reverse = '}' :: rt := by
    have hrev : obj.data.reverse.head? = some '}' := by
      rw [List.head?_reverse]; exact hlast
    cases hod : obj.data.reverse with
    | nil => rw [hod] at hrev; cases hrev
    | cons a rtail =>
      rw [hod] at hrev
      simp at hrev
      exact ⟨rtail, by rw [hrev]⟩
  have hOlen : 2 ≤ obj.data.length := by
    rcases ot with _ | ⟨b2, ot2⟩
    · rw [hO] at hlast
      simp at hlast
    · rw [hO]
      simp
  have hdata : (pre ++ obj ++ post).data
      = pre.data ++ (obj.data ++ post.data) := by
    rw [String.data_append, String.data_append, List.append_assoc]
  have hfirst : firstBrace (pre ++ obj ++ post).data '{' = some pre.data.length := by
    rw [hdata, firstBrace_append_not_mem _ _ _ hpre, hO, List.cons_append,
      firstBrace_head]
    simp
  have hrevdata : (pre ++ obj ++ post).data.reverse
      = post.data.reverse ++ (obj.data.reverse ++ pre.data.reverse) := by
    rw [hdata]
    simp [List.reverse_append]
  have hpost2 : ∀ c ∈ post.data.reverse, ¬ c = '}' := by
    intro c hcmem
    exact hpost c (List.mem_reverse.mp hcmem)
  have hlastB : lastBrace (pre ++ obj ++ post).data '}'
      = some ((pre ++ obj ++ post).data.length - 1 - post.data.length) := by
    unfold lastBrace
    rw [hrevdata, firstBrace_append_not_mem _ _ _ hpost2, hR, List.cons_append,
      firstBrace_head]
    simp [List.length_reverse]
  have hlen : (pre ++ obj ++ post).data.length
      = pre.data.length + obj.data.length + post.data.length := by
    rw [hdata]
    simp
    omega
  rw [extractJSON_eq_of (pre ++ obj ++ post) pre.data.length
    ((pre ++ obj ++ post).data.length - 1 - post.data.length) hfirst hlastB
    (by rw [hlen]; omega)]
  rw [hlen, hdata]
  have hdrop : ((pre.data ++ (obj.data ++ post.data)).drop pre.data.length)
      = obj.data ++ post.data := List.drop_left _ _
  have harith : pre.data.length + obj.data.length + post.data.length - 1
      - post.data.length + 1 - pre.data.length = obj.data.length := by omega
  rw [hdrop, harith, List.take_left, string_mk_data]

/-- Claim C3 as stated is false at a concrete input: `wCexC3` contains the
well-formed JSON object `wObjText` embedded in surrounding prose, yet because
the trailing prose contains a closing brace, extraction takes a longer span
and parsing fails instead of recovering that object. -/
theorem extract_recovery_cex :
    jsonParse wObjText
      = some (JValue.jobj [("status", JValue.jstr "READY"),
          ("user_message", JValue.jstr "ok")]) ∧
    wCexC3 = "" ++ wObjText ++ " tail\x7d" ∧
    extractJSON wCexC3 ≠ wObjText ∧
    jsonParse (extractJSON wCexC3) = none ∧
    ParseLLMResponse wCexC3 = Except.error "failed to parse JSON" := by
  refine ⟨rfl, rfl, by decide, rfl, rfl⟩

/-- Claim C3 (amended): extraction takes the span from the first opening
brace to the last closing brace of the completion text; when no enclosing
braces exist the parse fails and the pipeline returns a PARSE_ERROR result;
and for prose whose leading part contains no opening brace and whose trailing
part contains no closing brace, extraction returns exactly the embedded
object, so parsing recovers exactly that object. -/
theorem extract_parse_amended :
    (∀ content : String, ∀ request : IntentRequest,
      extractJSON content = "" → validateRequest request = none →
      ParseLLMResponse content = Except.error "no valid JSON found in response" ∧
      (ProcessIntent request (Except.ok content)).1.errorCode = some ErrorParseError ∧
      (ProcessIntent request (Except.ok content)).1.status = StatusError) ∧
    (∀ pre obj post : String,
      (∀ c ∈ pre.data, ¬ c = '{') → (∀ c ∈ post.data, ¬ c = '}') →
      obj.data.head? = some '{' → obj.data.getLast? = some '}' →
      extractJSON (pre ++ obj ++ post) = obj ∧
      jsonParse (extractJSON (pre ++ obj ++ post)) = jsonParse obj ∧
      ParseLLMResponse (pre ++ obj ++ post) = ParseLLMResponse obj) := by
  constructor
  · intro content request hex hreq
    refine ⟨?_, ?_, ?_⟩
    · simp [ParseLLMResponse, hex]
    · simp [ProcessIntent, hreq, ParseLLMResponse, hex, createErrorResponse]
    · simp [ProcessIntent, hreq, ParseLLMResponse, hex, createErrorResponse]
  · intro pre obj post hpre hpost hhead hlast
    have h1 : extractJSON (pre ++ obj ++ post) = obj :=
      extractJSON_embedded pre obj post hpre hpost hhead hlast
    have hnil : ("" ++ obj ++ "" : String) = obj := by
      apply String.ext
      rw [String.data_append, String.data_append]
      simp
    have hobj : extractJSON obj = obj := by
      have h2 := extractJSON_embedded "" obj "" (by intro c hc; simp at hc)
        (by intro c hc; simp at hc) hhead hlast
      rwa [hnil] at h2
    refine ⟨h1, by rw [h1], ?_⟩
    simp only [ParseLLMResponse, h1, hobj]

theorem extract_parse_amended_witness :
    (extractJSON "no json here" = "" ∧ validateRequest wReq = none ∧
     ParseLLMResponse "no json here" = Except.error "no valid JSON found in response" ∧
     (ProcessIntent wReq (Except.ok "no json here")).1.errorCode = some ErrorParseError) ∧
    ((∀ c ∈ ("Sure! " : String).data, ¬ c = '{') ∧
     (∀ c ∈ (" Done." : String).data, ¬ c = '}') ∧
     wObjText.data.head? = some '{' ∧ wObjText.data.getLast? = some '}' ∧
     extractJSON ("Sure! " ++ wObjText ++ " Done.") = wObjText) := by
  refine ⟨⟨rfl, by decide, ?_, ?_⟩, ⟨by decide, by decide, by decide, by decide, ?_⟩⟩
  · exact (extract_parse_amended.1 "no json here" wReq rfl (by decide)).1
  · exact ((extract_parse_amended.1 "no json here" wReq rfl (by decide)).2).1
  · exact (extract_parse_amended.2 "Sure! " wObjText " Done." (by decide) (by decide)
      (by decide) (by decide)).1

/-- Claim C2 as stated is false at concrete inputs: a successfully decoded
completion with empty `user_message` and invalid `status` ends with the fixed
fallback text, not the generic clarifying prompt; and the repair inside
`parseIntentResponse` alone leaves an unknown non-empty status unrepaired
rather than forcing it to ERROR. -/
theorem repair_pass_cex :
    jsonParse (extractJSON wContentBogus)
      = some (JValue.jobj [("status", JValue.jstr "BOGUS")]) ∧
    (decodeIntentResponse (JValue.jobj [("status", JValue.jstr "BOGUS")])).toOption
      = some { zeroIntentResponse with status := "BOGUS" } ∧
    ({ zeroIntentResponse with status := "BOGUS" } : IntentResponse).userMessage = "" ∧
    validStatusB "BOGUS" = false ∧
    (ProcessIntent wReq (Except.ok wContentBogus)).1.userMessage = FallbackMessage ∧
    FallbackMessage ≠ "How can I help you with your CDN setup?" ∧
    (parseIntentResponse wContentBogusMsg).toOption.map IntentResponse.status
      = some "BOGUS" ∧
    "BOGUS" ≠ StatusError := by
  refine ⟨rfl, by decide, rfl, rfl, by decide, by decide, by decide, by decide⟩

/-- Claim C2 (amended): for every completion text that decodes successfully
into the IntentResult shape, the full repair of the handler pipeline (the
parse-time repair followed by `validateAndCleanResponse`) guarantees: a
missing or unknown `status` is forced to ERROR and `user_message` is
overwritten with the fixed fallback text; an absent `parameters` mapping is
replaced by an empty mapping and is never null; and an empty decoded
`user_message` is replaced by the generic clarifying prompt when the decoded
status was one of the three known values (when the status is invalid, the
fallback text has already overwritten the empty message). The repair inside
`parseIntentResponse` alone handles only a missing status and nil
parameters. -/
theorem repair_pass_amended (request : IntentRequest) (content : String) (v : JValue)
    (r : IntentResponse) (hreq : validateRequest request = none)
    (hj : jsonParse (extractJSON content) = some v)
    (hd : decodeIntentResponse v = Except.ok r) :
    (validStatusB r.status = false →
      (ProcessIntent request (Except.ok content)).1.status = StatusError ∧
      (ProcessIntent request (Except.ok content)).1.userMessage = FallbackMessage) ∧
    (r.parameters = none →
      (ProcessIntent request (Except.ok content)).1.parameters = some []) ∧
    (ProcessIntent request (Except.ok content)).1.parameters ≠ none ∧
    ((r.userMessage = "" ∧ validStatusB r.status = true) →
      (ProcessIntent request (Except.ok content)).1.userMessage
        = "How can I help you with your CDN setup?") := by
  have hne : ¬ extractJSON content = "" := by
    intro h0
    rw [h0] at hj
    have hempty : jsonParse "" = none := rfl
    rw [hempty] at hj
    cases hj
  have hparse : ParseLLMResponse content
      = Except.ok
          (if (if r.status = "" then
                { r with status := StatusError, userMessage := FallbackMessage }
              else r).parameters = none
           then { (if r.status = "" then
                    { r with status := StatusError, userMessage := FallbackMessage }
                  else r) with parameters := some [] }
           else (if r.status = "" then
                  { r with status := StatusError, userMessage := FallbackMessage }
                else r)) := by
    simp only [ParseLLMResponse, hne, if_false, hj, hd]
  have hPI : (ProcessIntent request (Except.ok content)).1
      = validateAndCleanResponse
          { (if (if r.status = "" then
                  { r with status := StatusError, userMessage := FallbackMessage }
                else r).parameters = none
             then { (if r.status = "" then
                      { r with status := StatusError, userMessage := FallbackMessage }
                    else r) with parameters := some [] }
             else (if r.status = "" then
                    { r with status := StatusError, userMessage := FallbackMessage }
                  else r)) with sessionID := request.sessionID } := by
    simp only [ProcessIntent, hreq, hparse]
  rw [hPI]
  clear hPI hparse hj hd hne hreq
  have hvERR : validStatusB StatusError = true := rfl
  have hfbne : FallbackMessage ≠ "" := by decide
  refine ⟨?_, ?_, ?_, ?_⟩
  · intro hv
    by_cases hs : r.status = "" <;> by_cases hp : r.parameters = none <;>
      simp [validateAndCleanResponse, hs, hp, hv, hvERR, hfbne]
  · intro hp
    by_cases hs : r.status = "" <;> by_cases hv : validStatusB r.status = true <;>
      by_cases hm : r.userMessage = "" <;>
      simp [validateAndCleanResponse, hs, hp, hv, hvERR, hfbne, hm]
  · by_cases hs : r.status = "" <;> by_cases hv : validStatusB r.status = true <;>
      by_cases hp : r.parameters = none <;> by_cases hm : r.userMessage = "" <;>
      simp [validateAndCleanResponse, hs, hp, hv, hvERR, hfbne, hm]
  · intro hcond
    obtain ⟨hm, hv⟩ := hcond
    have hs : ¬ r.status = "" := by
      intro h0
      rw [h0] at hv
      exact absurd hv (by decide)
    by_cases hp : r.parameters = none <;>
      simp [validateAndCleanResponse, hs, hp, hv, hvERR, hfbne, hm]

theorem repair_pass_amended_witness :
    (validateRequest wReq = none ∧
     jsonParse (extractJSON wContentBadStatus)
       = some (JValue.jobj [("status", JValue.jstr "WAT"),
           ("user_message", JValue.jstr "")]) ∧
     (decodeIntentResponse (JValue.jobj [("status", JValue.jstr "WAT"),
         ("user_message", JValue.jstr "")])).toOption
       = some { zeroIntentResponse with status := "WAT" }) ∧
    ((validStatusB ({ zeroIntentResponse with status := "WAT" } : IntentResponse).status
          = false →
        (ProcessIntent wReq (Except.ok wContentBadStatus)).1.status = StatusError ∧
        (ProcessIntent wReq (Except.ok wContentBadStatus)).1.userMessage
          = FallbackMessage) ∧
     (ProcessIntent wReq (Except.ok wContentBadStatus)).1.parameters ≠ none) := by
  refine ⟨⟨by decide, rfl, rfl⟩, ?_, ?_⟩
  · exact (repair_pass_amended wReq wContentBadStatus
      (JValue.jobj [("status", JValue.jstr "WAT"), ("user_message", JValue.jstr "")])
      { zeroIntentResponse with status := "WAT" } (by decide) rfl rfl).1
  · exact (repair_pass_amended wReq wContentBadStatus
      (JValue.jobj [("status", JValue.jstr "WAT"), ("user_message", JValue.jstr "")])
      { zeroIntentResponse with status := "WAT" } (by decide) rfl rfl).2.2.1

/-! ### Auxiliary lemmas for the append sequence invariants -/

lemma getLastD_take_eq_getD {α : Type} (l : List α) (d : α) :
    ∀ k, k ≤ l.length → (l.take k).getLastD d = (d :: l).getD k d := by
  induction l generalizing d with
  | nil =>
    intro k hk
    have hk0 : k = 0 := Nat.le_zero.mp hk
    subst hk0
    simp
  | cons a l2 ih =>
    intro k hk
    cases k with
    | zero => simp
    | succ k2 =>
      rw [List.take_succ_cons, List.getLastD_cons, ih a k2 (by simpa using hk),
        List.getD_cons_succ]
      have hb : k2 < (a :: l2).length := by
        simp only [List.length_cons] at hk ⊢
        omega
      rw [List.getD_eq_getElem _ _ hb, List.getD_eq_getElem _ _ hb]

lemma saveMessage_stored_first (kv : RedisKV) (sid uid : String) (m : Message) (n : Nat)
    (h0 : kv (sessionKey sid) = none) :
    SaveMessage kv sid uid m n
      = updKV kv (sessionKey sid)
          { sessionID := sid
            userID := uid
            messages := [m]
            metadata := { startedAt := m.timestamp, lastActivity := n, messageCount := 1 } } := by
  funext q
  simp [SaveMessage, LoadSession, h0, saveSession, updKV]

lemma appendAll_stored (sid uid : String) (L : List (Message × Nat)) :
    ∀ (kv : RedisKV) (r : SessionData),
      kv (sessionKey sid) = some r → r.sessionID = sid → r.messages ≠ [] →
      r.metadata.messageCount = r.messages.length →
      ∃ r2, (appendAll kv sid uid L) (sessionKey sid) = some r2 ∧
        r2.sessionID = sid ∧
        r2.messages = r.messages ++ L.map Prod.fst ∧
        r2.metadata.messageCount = r2.messages.length ∧
        r2.metadata.startedAt = r.metadata.startedAt ∧
        r2.metadata.lastActivity = (L.map Prod.snd).getLastD r.metadata.lastActivity := by
  induction L with
  | nil =>
    intro kv r hkv hsid hne hc
    exact ⟨r, hkv, hsid, by simp, by simpa using hc, rfl, rfl⟩
  | cons x rest ih =>
    intro kv r hkv hsid hne hc
    obtain ⟨m, n⟩ := x
    have hlen1 : ¬ (r.messages ++ [m]).length = 1 := by
      obtain ⟨a, as, ha⟩ := List.exists_cons_of_ne_nil hne
      rw [ha]
      simp
    by_cases hu : r.userID = ""
    · have hsave : SaveMessage kv sid uid m n
          = updKV kv (sessionKey sid)
              { sessionID := sid
                userID := uid
                messages := r.messages ++ [m]
                metadata :=
                  { startedAt := r.metadata.startedAt
                    lastActivity := n
                    messageCount := (r.messages ++ [m]).length } } := by
        funext q
        simp [SaveMessage, LoadSession, hkv, saveSession, updKV, hu, hlen1, hsid, hne]
      obtain ⟨r2, h1, h2, h3, h4, h5, h6⟩ := ih (updKV kv (sessionKey sid)
          { sessionID := sid
            userID := uid
            messages := r.messages ++ [m]
            metadata :=
              { startedAt := r.metadata.startedAt
                lastActivity := n
                messageCount := (r.messages ++ [m]).length } })
          { sessionID := sid
            userID := uid
            messages := r.messages ++ [m]
            metadata :=
              { startedAt := r.metadata.startedAt
                lastActivity := n
                messageCount := (r.messages ++ [m]).length } }
          (by simp [updKV]) rfl (by simp) rfl
      refine ⟨r2, ?_, h2, ?_, h4, h5, ?_⟩
      · show (appendAll (SaveMessage kv sid uid m n) sid uid rest) (sessionKey sid) = some r2
        rw [hsave]
        exact h1
      · rw [h3]
        simp
      · rw [h6]
        show (List.map Prod.snd rest).getLastD n
            = (List.map Prod.snd ((m, n) :: rest)).getLastD r.metadata.lastActivity
        rw [List.map_cons, List.getLastD_cons]
    · have hsave : SaveMessage kv sid uid m n
          = updKV kv (sessionKey sid)
              { sessionID := sid
                userID := r.userID
                messages := r.messages ++ [m]
                metadata :=
                  { startedAt := r.metadata.startedAt
                    lastActivity := n
                    messageCount := (r.messages ++ [m]).length } } := by
        funext q
        simp [SaveMessage, LoadSession, hkv, saveSession, updKV, hu, hlen1, hsid, hne]
      obtain ⟨r2, h1, h2, h3, h4, h5, h6⟩ := ih (updKV kv (sessionKey sid)
          { sessionID := sid
            userID := r.userID
            messages := r.messages ++ [m]
            metadata :=
              { startedAt := r.metadata.startedAt
                lastActivity := n
                messageCount := (r.messages ++ [m]).length } })
          { sessionID := sid
            userID := r.userID
            messages := r.messages ++ [m]
            metadata :=
              { startedAt := r.metadata.startedAt
                lastActivity := n
                messageCount := (r.messages ++ [m]).length } }
          (by simp [updKV]) rfl (by simp) rfl
      refine ⟨r2, ?_, h2, ?_, h4, h5, ?_⟩
      · show (appendAll (SaveMessage kv sid uid m n) sid uid rest) (sessionKey sid) = some r2
        rw [hsave]
        exact h1
      · rw [h3]
        simp
      · rw [h6]
        show (List.map Prod.snd rest).getLastD n
            = (List.map Prod.snd ((m, n) :: rest)).getLastD r.metadata.lastActivity
        rw [List.map_cons, List.getLastD_cons]

/-- Claim C5: starting from a session absent from the store, after a sequence
of `SaveMessage` appends the stored record satisfies: `message_count` equals
the number of appends and the length of the stored message sequence; the
messages are exactly the appended ones in order; `started_at` equals the
first append's timestamp and is never overwritten by later appends; and
`last_activity` equals the last write's instant and is monotonically
non-decreasing across successive writes when the write instants are
non-decreasing. -/
theorem saveMessage_append_invariants (kv : RedisKV) (sid uid : String)
    (m : Message) (n : Nat) (rest : List (Message × Nat))
    (h0 : kv (sessionKey sid) = none) :
    (storedAfter kv sid uid ((m, n) :: rest)).metadata.messageCount = rest.length + 1 ∧
    (storedAfter kv sid uid ((m, n) :: rest)).messages = ((m, n) :: rest).map Prod.fst ∧
    (storedAfter kv sid uid ((m, n) :: rest)).metadata.messageCount
      = (storedAfter kv sid uid ((m, n) :: rest)).messages.length ∧
    (storedAfter kv sid uid ((m, n) :: rest)).metadata.startedAt = m.timestamp ∧
    (∀ k, k ≤ rest.length →
      (storedAfter kv sid uid (((m, n) :: rest).take (k + 1))).metadata.startedAt
        = m.timestamp) ∧
    (storedAfter kv sid uid ((m, n) :: rest)).metadata.lastActivity
      = (rest.map Prod.snd).getLastD n ∧
    ((n :: rest.map Prod.snd).Chain' (· ≤ ·) →
      ∀ i j, i ≤ j → j ≤ rest.length →
        (storedAfter kv sid uid (((m, n) :: rest).take (i + 1))).metadata.lastActivity
          ≤ (storedAfter kv sid uid (((m, n) :: rest).take (j + 1))).metadata.lastActivity)
    := by
  have hMain : ∀ (M : List (Message × Nat)), ∃ r2,
      storedAfter kv sid uid ((m, n) :: M) = r2 ∧
      r2.messages = m :: M.map Prod.fst ∧
      r2.metadata.messageCount = r2.messages.length ∧
      r2.metadata.startedAt = m.timestamp ∧
      r2.metadata.lastActivity = (M.map Prod.snd).getLastD n := by
    intro M
    obtain ⟨r2, h1, h2, h3, h4, h5, h6⟩ := appendAll_stored sid uid M
      (SaveMessage kv sid uid m n)
      { sessionID := sid
        userID := uid
        messages := [m]
        metadata := { startedAt := m.timestamp, lastActivity := n, messageCount := 1 } }
      (by rw [saveMessage_stored_first kv sid uid m n h0]; simp [updKV]) rfl (by simp) rfl
    refine ⟨r2, ?_, ?_, h4, ?_, ?_⟩
    · show LoadSession (appendAll (SaveMessage kv sid uid m n) sid uid M) sid 0 = r2
      simp [LoadSession, h1]
    · rw [h3]
      simp
    · rw [h5]
    · rw [h6]
  obtain ⟨rAll, hAll, hAmsgs, hAcount, hAstart, hAlast⟩ := hMain rest
  have hTakeStart : ∀ k, k ≤ rest.length →
      (storedAfter kv sid uid (((m, n) :: rest).take (k + 1))).metadata.startedAt
        = m.timestamp := by
    intro k hk
    obtain ⟨r2, h1, h2, h3, h4, h5⟩ := hMain (rest.take k)
    rw [List.take_succ_cons, h1, h4]
  have hTakeLast : ∀ k, k ≤ rest.length →
      (storedAfter kv sid uid (((m, n) :: rest).take (k + 1))).metadata.lastActivity
        = (n :: rest.map Prod.snd).getD k n := by
    intro k hk
    obtain ⟨r2, h1, h2, h3, h4, h5⟩ := hMain (rest.take k)
    rw [List.take_succ_cons, h1, h5, List.map_take,
      getLastD_take_eq_getD (rest.map Prod.snd) n k (by simpa using hk)]
  refine ⟨?_, ?_, ?_, ?_, hTakeStart, ?_, ?_⟩
  · rw [hAll, hAcount, hAmsgs]
    simp
  · rw [hAll, hAmsgs]
    simp
  · rw [hAll]
    exact hAcount
  · rw [hAll]
    exact hAstart
  · rw [hAll]
    exact hAlast
  · intro hchain i j hij hj
    rw [hTakeLast i (le_trans hij hj), hTakeLast j hj]
    rcases Nat.eq_or_lt_of_le hij with heq | hlt
    · rw [heq]
    · have hpair : (n :: rest.map Prod.snd).Pairwise (· ≤ ·) :=
        List.chain'_iff_pairwise.mp hchain
      have hilen : i < (n :: rest.map Prod.snd).length := by
        simp only [List.length_cons, List.length_map]
        omega
      have hjlen : j < (n :: rest.map Prod.snd).length := by
        simp only [List.length_cons, List.length_map]
        omega
      have hget := List.pairwise_iff_get.mp hpair ⟨i, hilen⟩ ⟨j, hjlen⟩
        (Fin.mk_lt_mk.mpr hlt)
      rw [List.getD_eq_getElem _ _ hilen, List.getD_eq_getElem _ _ hjlen]
      simpa [List.get_eq_getElem] using hget

theorem saveMessage_append_invariants_witness :
    wKVempty (sessionKey "s1") = none ∧
    (storedAfter wKVempty "s1" "u1"
        [({ role := "user", content := "a", timestamp := 10 }, 10),
         ({ role := "assistant", content := "b", timestamp := 11 }, 11)]).metadata.messageCount
      = 2 ∧
    (storedAfter wKVempty "s1" "u1"
        [({ role := "user", content := "a", timestamp := 10 }, 10),
         ({ role := "assistant", content := "b", timestamp := 11 }, 11)]).metadata.startedAt
      = 10 ∧
    (storedAfter wKVempty "s1" "u1"
        [({ role := "user", content := "a", timestamp := 10 }, 10),
         ({ role := "assistant", content := "b", timestamp := 11 }, 11)]).metadata.lastActivity
      = 11 ∧
    (storedAfter wKVempty "s1" "u1"
        [({ role := "user", content := "a", timestamp := 10 }, 10),
         ({ role := "assistant", content := "b", timestamp := 11 }, 11)]).messages.map
        Message.content = ["a", "b"] := by
  refine ⟨rfl, ?_, by decide, by decide, by decide⟩
  have h := saveMessage_append_invariants wKVempty "s1" "u1"
    { role := "user", content := "a", timestamp := 10 } 10
    [({ role := "assistant", content := "b", timestamp := 11 }, 11)] rfl
  simpa using h.1
